/-
Verification of the AruTradex batch-predict server (`server.py`) against its
natural-language specification.

The Python pipeline is shallowly embedded in Lean:
  * prices and times are exact rationals / integers (the source uses IEEE
    floats and pandas datetimes; none of the checked properties depend on
    rounding, and the one genuinely irrational operation - the square root
    inside a standard deviation - is modelled by a nonnegative rational
    approximation whose exact value no checked property depends on);
  * pandas frames are lists of row structures, a missing / NaN entry is
    `Option.none`;
  * fallible code returns `Except` (a Python exception is `Except.error`),
    "no data" results are `Option.none`;
  * the HTTP layer is abstracted by passing the (possibly failing) response
    as an explicit argument to each adapter.
-/
import Mathlib

set_option maxRecDepth 100000

/-- Deciding equality of rationals through the `num`/`den` projections: the
library's derived instance does not reduce well inside concrete-evaluation
proofs; this one is used by every `decide`-style witness below. -/
instance (priority := 2000) fastRatDecEq : DecidableEq ℚ := fun a b =>
  decidable_of_iff (a.num = b.num ∧ a.den = b.den)
    ⟨fun h => Rat.ext h.1 h.2, fun h => ⟨congrArg Rat.num h, congrArg Rat.den h⟩⟩

/-! ## Data model

A `Candle` is one fully-defined OHLCV row; a `RawRow` is a frame row that may
still contain undefined (NaN) entries.  Timestamps are integer minutes since
the epoch (pandas keeps UTC datetimes; minute resolution is what the pipeline
buckets on). -/

structure Candle where
  ts : ℤ
  op : ℚ
  hi : ℚ
  lo : ℚ
  cl : ℚ
  vol : ℚ
deriving DecidableEq, Repr

structure RawRow where
  ts : ℤ
  op : Option ℚ
  hi : Option ℚ
  lo : Option ℚ
  cl : Option ℚ
  vol : Option ℚ
deriving DecidableEq, Repr

def Candle.toRaw (c : Candle) : RawRow :=
  ⟨c.ts, some c.op, some c.hi, some c.lo, some c.cl, some c.vol⟩

/-! ## TTL cache (`cache_get` / `cache_set`, server.py lines 77-92)

`_CACHE` maps a string key to `(timestamp, payload)`.  Time is a rational
number of seconds.  `cache_get` lazily evicts an entry strictly older than
`CACHE_TTL_SECONDS` and returns the (possibly updated) cache alongside the
lookup result. -/

def CACHE_TTL_SECONDS : ℚ := 15

def Cache (α : Type) : Type := String → Option (ℚ × α)

def cacheSet {α : Type} (c : Cache α) (key : String) (now : ℚ) (payload : α) :
    Cache α :=
  fun k => if k = key then some (now, payload) else c k

def cacheGet {α : Type} (c : Cache α) (key : String) (now : ℚ) :
    Option α × Cache α :=
  match c key with
  | none => (none, c)
  | some (ts, payload) =>
    if now - ts > CACHE_TTL_SECONDS then
      -- `_CACHE.pop(key, None)` : lazy eviction of the stale entry
      (none, fun k => if k = key then none else c k)
    else
      (some payload, c)

/-- C8: after `set(key, value)` at time `T`, a `get(key)` at any time
`≤ T+15s` returns the value (and leaves the entry in place), and a `get(key)`
at any time `> T+15s` returns absent and removes the stale entry from the
cache (lazy eviction). -/
theorem c8_cache_ttl {α : Type} (c : Cache α) (key : String) (v : α)
    (t tq : ℚ) :
    (tq ≤ t + 15 →
      cacheGet (cacheSet c key t v) key tq = (some v, cacheSet c key t v))
    ∧ (tq > t + 15 →
      (cacheGet (cacheSet c key t v) key tq).1 = none
      ∧ (cacheGet (cacheSet c key t v) key tq).2 key = none) := by
  constructor
  · intro h
    have hk : (cacheSet c key t v) key = some (t, v) := by
      simp [cacheSet]
    simp only [cacheGet, hk]
    have hle : ¬ tq - t > CACHE_TTL_SECONDS := by
      simp only [CACHE_TTL_SECONDS]
      linarith
    simp [hle]
  · intro h
    have hk : (cacheSet c key t v) key = some (t, v) := by
      simp [cacheSet]
    have hgt : tq - t > CACHE_TTL_SECONDS := by
      simp only [CACHE_TTL_SECONDS]
      linarith
    simp [cacheGet, hk, hgt]

/-- Witness for C8 at a concrete instantiation: value set at time 0,
queried at times 10 (hit) and 16 (expired and evicted). -/
theorem c8_cache_ttl_witness :
    (cacheGet (cacheSet (fun _ => (none : Option (ℚ × ℚ))) "k" 0 1) "k" 10
      = (some 1, cacheSet (fun _ => (none : Option (ℚ × ℚ))) "k" 0 1))
    ∧ ((cacheGet (cacheSet (fun _ => (none : Option (ℚ × ℚ))) "k" 0 1) "k" 16).1 = none
      ∧ (cacheGet (cacheSet (fun _ => (none : Option (ℚ × ℚ))) "k" 0 1) "k" 16).2 "k" = none) :=
  ⟨(c8_cache_ttl _ "k" 1 0 10).1 (by norm_num),
   (c8_cache_ttl _ "k" 1 0 16).2 (by norm_num)⟩

/-! ## Client-candle normalization (`candles_to_df`, server.py lines 142-167)

The CandleWindow lists are zipped into raw rows (pydantic guarantees the
per-column lists; a missing `volume` list is the all-`none` column and is
later filled with 0).  `pd.to_numeric(errors="coerce")` makes non-numeric
entries NaN, `dropna(subset=OHLC)` removes rows with any undefined OHLC
entry, `volume.fillna(0)`, then `sort_values("timestamp")`. -/

def rowLe (a b : Candle) : Prop := a.ts ≤ b.ts

instance : DecidableRel rowLe := fun a b => inferInstanceAs (Decidable (a.ts ≤ b.ts))

instance : IsTotal Candle rowLe := ⟨fun a b => Int.le_total a.ts b.ts⟩

instance : IsTrans Candle rowLe := ⟨fun _ _ _ hab hbc => le_trans hab hbc⟩

/-- The coercion + `dropna(subset=["open","high","low","close"])` +
`volume.fillna(0)` stage shared by `candles_to_df` and the orchestrator's
row cleaning. -/
def cleanRows (rows : List RawRow) : List Candle :=
  rows.filterMap (fun r =>
    match r.op, r.hi, r.lo, r.cl with
    | some o, some h, some l, some c => some ⟨r.ts, o, h, l, c, r.vol.getD 0⟩
    | _, _, _, _ => none)

def candlesToDf (rows : List RawRow) : List Candle :=
  List.insertionSort rowLe (cleanRows rows)

/-- C9 counterexample: two client-supplied candles with the same timestamp
both survive normalization, so the produced series is not strictly ordered
and has a duplicate timestamp. -/
theorem c9_duplicate_timestamps_cex :
    (candlesToDf
      [⟨5, some 1, some 1, some 1, some 1, some 1⟩,
       ⟨5, some 2, some 2, some 2, some 2, some 2⟩]).map Candle.ts = [5, 5] := by
  decide

/-- C9 (amended): the normalized series is sorted by timestamp in
non-decreasing order (duplicates are preserved, not removed) and is a
permutation of the coerced-and-cleaned input rows. -/
theorem c9_sorted_nondecreasing (rows : List RawRow) :
    (candlesToDf rows).Sorted rowLe
    ∧ (candlesToDf rows).Perm (cleanRows rows) :=
  ⟨List.sorted_insertionSort rowLe (cleanRows rows),
   List.perm_insertionSort rowLe (cleanRows rows)⟩

/-! ## Aggregator (`aggregate_from_1m`, server.py lines 169-183)

`df.resample(offset).first()/.max()/.min()/.last()/.sum()` followed by
`pd.concat(...).dropna()`.  Pandas semantics, mirrored here:

  * the resampler emits one bucket for every interval between the first and
    the last timestamp (gap buckets included);
  * `first/max/min/last` skip NaN inside a bucket and are NaN only when the
    bucket has **no** defined value in that column (in particular on empty
    gap buckets); `sum` of an empty/all-NaN bucket is 0, never NaN;
  * `dropna` therefore drops exactly the buckets in which some OHLC column
    has no defined value at all.

Bucket boundaries are floor-division of the minute timestamp by the bucket
width (the `origin="start_day"` default is midnight of the first day and
1440 is divisible by every supported width, so this agrees with pandas).
`first`/`last` are positional within a bucket in input order; both call
sites (client candles, local CSV) pass time-sorted frames, as the pandas
resampler expects. -/

def widthOf : String → Option ℤ
  | "5m" => some 5
  | "15m" => some 15
  | "1h" => some 60
  | "4h" => some 240
  | _ => none

def maxQ? : List ℚ → Option ℚ
  | [] => none
  | x :: xs => some (xs.foldl max x)

def minQ? : List ℚ → Option ℚ
  | [] => none
  | x :: xs => some (xs.foldl min x)

def bucketRows (rows : List RawRow) (w b : ℤ) : List RawRow :=
  rows.filter (fun r => Int.fdiv r.ts w = b)

def definedOps (rows : List RawRow) (w b : ℤ) : List ℚ :=
  (bucketRows rows w b).filterMap RawRow.op

def definedHis (rows : List RawRow) (w b : ℤ) : List ℚ :=
  (bucketRows rows w b).filterMap RawRow.hi

def definedLos (rows : List RawRow) (w b : ℤ) : List ℚ :=
  (bucketRows rows w b).filterMap RawRow.lo

def definedCls (rows : List RawRow) (w b : ℤ) : List ℚ :=
  (bucketRows rows w b).filterMap RawRow.cl

def definedVols (rows : List RawRow) (w b : ℤ) : List ℚ :=
  (bucketRows rows w b).filterMap RawRow.vol

def bucketIdxs (rows : List RawRow) (w : ℤ) : List ℤ :=
  match (rows.map RawRow.ts).min?, (rows.map RawRow.ts).max? with
  | some a, some b =>
    (List.range (Int.fdiv b w - Int.fdiv a w + 1).toNat).map
      (fun j => Int.fdiv a w + j)
  | _, _ => []

def bucketAgg (rows : List RawRow) (w b : ℤ) : Option RawRow :=
  match (definedOps rows w b).head?, maxQ? (definedHis rows w b),
      minQ? (definedLos rows w b), (definedCls rows w b).getLast? with
  | some o, some h, some l, some c =>
    some ⟨b * w, some o, some h, some l, some c, some (definedVols rows w b).sum⟩
  | _, _, _, _ => none

def resampleOHLCV (rows : List RawRow) (w : ℤ) : List RawRow :=
  (bucketIdxs rows w).filterMap (bucketAgg rows w)

def aggregateFrom1m (df1m : List RawRow) (tf : String) :
    Except String (List RawRow) :=
  if tf = "1m" then .ok df1m
  else
    match widthOf tf with
    | none => .error ("unsupported tf for aggregation: " ++ tf)
    | some w => .ok (resampleOHLCV df1m w)

lemma le_foldl_max (xs : List ℚ) (x : ℚ) : x ≤ xs.foldl max x := by
  induction xs generalizing x with
  | nil => exact le_refl x
  | cons y ys ih => exact le_trans (le_max_left x y) (ih (max x y))

lemma foldl_max_ub (xs : List ℚ) (x : ℚ) : ∀ y ∈ xs, y ≤ xs.foldl max x := by
  induction xs generalizing x with
  | nil => intro y hy; cases hy
  | cons z zs ih =>
    intro y hy
    rcases List.mem_cons.mp hy with h | h
    · subst h
      exact le_trans (le_max_right x y) (le_foldl_max zs (max x y))
    · exact ih (max x z) y h

lemma foldl_max_mem (xs : List ℚ) (x : ℚ) :
    xs.foldl max x = x ∨ xs.foldl max x ∈ xs := by
  induction xs generalizing x with
  | nil => exact Or.inl rfl
  | cons y ys ih =>
    rcases ih (max x y) with h | h
    · rcases max_choice x y with hm | hm
      · exact Or.inl (by simpa [List.foldl, hm] using h)
      · refine Or.inr (List.mem_cons.mpr (Or.inl ?_))
        simpa [List.foldl, hm] using h
    · exact Or.inr (List.mem_cons.mpr (Or.inr h))

lemma maxQ?_spec {l : List ℚ} {m : ℚ} (h : maxQ? l = some m) :
    m ∈ l ∧ ∀ x ∈ l, x ≤ m := by
  cases l with
  | nil => simp [maxQ?] at h
  | cons x xs =>
    simp only [maxQ?, Option.some.injEq] at h
    subst h
    constructor
    · rcases foldl_max_mem xs x with h | h
      · exact List.mem_cons.mpr (Or.inl h)
      · exact List.mem_cons.mpr (Or.inr h)
    · intro y hy
      rcases List.mem_cons.mp hy with h | h
      · subst h; exact le_foldl_max xs y
      · exact foldl_max_ub xs x y h

lemma foldl_min_le (xs : List ℚ) (x : ℚ) : xs.foldl min x ≤ x := by
  induction xs generalizing x with
  | nil => exact le_refl x
  | cons y ys ih => exact le_trans (ih (min x y)) (min_le_left x y)

lemma foldl_min_lb (xs : List ℚ) (x : ℚ) : ∀ y ∈ xs, xs.foldl min x ≤ y := by
  induction xs generalizing x with
  | nil => intro y hy; cases hy
  | cons z zs ih =>
    intro y hy
    rcases List.mem_cons.mp hy with h | h
    · subst h
      exact le_trans (foldl_min_le zs (min x y)) (min_le_right x y)
    · exact ih (min x z) y h

lemma foldl_min_mem (xs : List ℚ) (x : ℚ) :
    xs.foldl min x = x ∨ xs.foldl min x ∈ xs := by
  induction xs generalizing x with
  | nil => exact Or.inl rfl
  | cons y ys ih =>
    rcases ih (min x y) with h | h
    · rcases min_choice x y with hm | hm
      · exact Or.inl (by simpa [List.foldl, hm] using h)
      · refine Or.inr (List.mem_cons.mpr (Or.inl ?_))
        simpa [List.foldl, hm] using h
    · exact Or.inr (List.mem_cons.mpr (Or.inr h))

lemma minQ?_spec {l : List ℚ} {m : ℚ} (h : minQ? l = some m) :
    m ∈ l ∧ ∀ x ∈ l, m ≤ x := by
  cases l with
  | nil => simp [minQ?] at h
  | cons x xs =>
    simp only [minQ?, Option.some.injEq] at h
    subst h
    constructor
    · rcases foldl_min_mem xs x with h | h
      · exact List.mem_cons.mpr (Or.inl h)
      · exact List.mem_cons.mpr (Or.inr h)
    · intro y hy
      rcases List.mem_cons.mp hy with h | h
      · subst h; exact foldl_min_le xs y
      · exact foldl_min_lb xs x y h

lemma bucketAgg_ts {rows : List RawRow} {w b : ℤ} {r : RawRow}
    (h : bucketAgg rows w b = some r) : r.ts = b * w := by
  unfold bucketAgg at h
  split at h
  · cases h; rfl
  · cases h

deriving instance DecidableEq for Except

lemma mem_resample {rows : List RawRow} {w : ℤ} {r : RawRow}
    (h : r ∈ resampleOHLCV rows w) :
    ∃ b : ℤ, bucketAgg rows w b = some r := by
  rcases List.mem_filterMap.mp h with ⟨b, _, hagg⟩
  exact ⟨b, hagg⟩

/-- C2 counterexample: a 5-minute bucket containing an undefined input value
(the first row's open is NaN) is **not** dropped; pandas' skip-NaN reductions
keep the bucket, taking the first *defined* open.  The claim requires such a
bucket to be dropped. -/
theorem c2_aggregation_cex :
    aggregateFrom1m
      [⟨0, none, some 1, some 1, some 1, some 1⟩,
       ⟨1, some 2, some 2, some 2, some 2, some 1⟩] "5m"
      = .ok [⟨0, some 2, some 2, some 1, some 2, some 2⟩] :=
  of_decide_eq_true (by with_unfolding_all rfl)

/-- C2 (amended): for a supported coarser target timeframe the aggregation
succeeds, and every emitted bucket row has timestamp `b*w`, open = the first
defined open of the bucket, high = a defined high that bounds all defined
highs of the bucket from above, low = a defined low bounding all defined lows
from below, close = the last defined close, and volume = the sum of the
defined volumes.  A bucket in which some OHLC column has no defined value at
all (in particular an empty gap bucket) is dropped, not zero-filled.  An
unsupported target timeframe fails fast with an explicit "unsupported tf for
aggregation" error. -/
theorem c2_aggregation (rows : List RawRow) (tf : String) (w : ℤ)
    (hw : widthOf tf = some w) :
    (aggregateFrom1m rows tf = .ok (resampleOHLCV rows w))
    ∧ (∀ r ∈ resampleOHLCV rows w,
        ∃ b : ℤ, r.ts = b * w
          ∧ r.op = (definedOps rows w b).head?
          ∧ (∃ h, r.hi = some h ∧ h ∈ definedHis rows w b
              ∧ ∀ x ∈ definedHis rows w b, x ≤ h)
          ∧ (∃ l, r.lo = some l ∧ l ∈ definedLos rows w b
              ∧ ∀ x ∈ definedLos rows w b, l ≤ x)
          ∧ r.cl = (definedCls rows w b).getLast?
          ∧ r.vol = some (definedVols rows w b).sum)
    ∧ (∀ b : ℤ,
        (definedOps rows w b = [] ∨ definedHis rows w b = []
          ∨ definedLos rows w b = [] ∨ definedCls rows w b = []) →
        ∀ r ∈ resampleOHLCV rows w, r.ts ≠ b * w)
    ∧ (∀ s : String, s ∉ ["1m", "5m", "15m", "1h", "4h"] →
        aggregateFrom1m rows s = .error ("unsupported tf for aggregation: " ++ s)) := by
  have hwpos : 0 < w := by
    unfold widthOf at hw
    split at hw <;> simp_all <;> omega
  refine ⟨?_, ?_, ?_, ?_⟩
  · unfold widthOf at hw
    split at hw <;> simp_all [aggregateFrom1m, widthOf]
  · intro r hr
    rcases mem_resample hr with ⟨b, hagg⟩
    refine ⟨b, bucketAgg_ts hagg, ?_⟩
    unfold bucketAgg at hagg
    split at hagg
    case _ o h l c ho hh hl hc =>
      cases hagg
      rcases maxQ?_spec hh with ⟨hmem, hub⟩
      rcases minQ?_spec hl with ⟨lmem, llb⟩
      exact ⟨ho.symm, ⟨h, rfl, hmem, hub⟩, ⟨l, rfl, lmem, llb⟩, hc.symm, rfl⟩
    · cases hagg
  · intro b hempty r hr hts
    rcases mem_resample hr with ⟨b', hagg⟩
    have hb : b' = b := by
      have := bucketAgg_ts hagg
      have hbw : b' * w = b * w := by rw [← this, hts]
      exact mul_right_cancel₀ (ne_of_gt hwpos) hbw
    subst hb
    unfold bucketAgg at hagg
    rcases hempty with h | h | h | h <;> simp [h, maxQ?, minQ?] at hagg
  · intro s hs
    have h1 : s ≠ "1m" := by intro h; subst h; simp at hs
    have hwn : widthOf s = none := by
      unfold widthOf
      split <;> simp_all
    simp [aggregateFrom1m, h1, hwn]

/-- Witness for C2 at a concrete input: two rows falling in different
15-minute buckets. -/
theorem c2_aggregation_witness :
    aggregateFrom1m
      [⟨0, some 1, some 2, some 1, some 1, some 3⟩,
       ⟨16, some 5, some 6, some 4, some 5, some 7⟩] "15m"
      = .ok (resampleOHLCV
        [⟨0, some 1, some 2, some 1, some 1, some 3⟩,
         ⟨16, some 5, some 6, some 4, some 5, some 7⟩] 15) :=
  (c2_aggregation
    [⟨0, some 1, some 2, some 1, some 1, some 3⟩,
     ⟨16, some 5, some 6, some 4, some 5, some 7⟩] "15m" 15 rfl).1

/-! ## Feature engine - fallback path (`compute_features`, server.py 378-411)

The primary path delegates to the external `pandas_ta` library (an external
collaborator, not part of this repository's code); when it raises - e.g.
when the library is not installed - the in-source fallback computes the same
columns with plain pandas.  That fallback is what is embedded here.
Pandas behaviours mirrored exactly:

  * `df["ret_1"]` was already assigned in the `try:` block before the
    library call raises, so the fallback frame carries it and `dropna()`
    drops row 0 for its NaN;
  * `up/down = delta.clip(...).rolling(14).mean()` is NaN until index 14
    (the window must avoid `delta[0] = NaN`); the subsequent
    `.replace([inf,-inf], nan).fillna(0)` turns *both* a zero-loss infinity
    and a not-yet-warm NaN into ratio 0, so `rsi14` is total;
  * the true range at row 0 is `high[0] - low[0]`: Python's `max(h, nan)`
    returns `h` (the comparison with NaN is False), likewise `min(l, nan)`,
    so `combine` with the shifted close keeps the bare high/low there;
  * rolling std has NaN until index 5 and is then `fillna(0)`-total;
  * `pct_change` on a zero previous close: the embedding uses Lean's
    `x / 0 = 0` convention (pandas produces inf/NaN there; no checked
    property involves zero closes);
  * `np.sqrt` inside a standard deviation is irrational in general; it is
    modelled by the nonnegative rational under-approximation `sqrtQ`.
    Every checked property depends only on `0 ≤ sqrtQ v`. -/

def getQ (xs : List ℚ) (i : ℕ) : ℚ := xs.getD i 0

def deltaAt (cs : List ℚ) (i : ℕ) : Option ℚ :=
  if 1 ≤ i ∧ i < cs.length then some (getQ cs i - getQ cs (i - 1)) else none

def pctAt (cs : List ℚ) (i : ℕ) : Option ℚ :=
  if 1 ≤ i ∧ i < cs.length then
    some ((getQ cs i - getQ cs (i - 1)) / getQ cs (i - 1))
  else none

/-- `series.rolling(w).mean()` at index `i` (window `i-w+1 .. i`, NaN unless
the full window exists and is NaN-free). -/
def roll (w : ℕ) (f : ℕ → Option ℚ) (i : ℕ) : Option ℚ :=
  if w ≤ i + 1 then
    let vs := (List.range w).map (fun j => f (i + 1 - w + j))
    if vs.all Option.isSome then some ((vs.filterMap id).sum / (w : ℚ)) else none
  else none

def upAt (cs : List ℚ) (i : ℕ) : Option ℚ :=
  roll 14 (fun j => (deltaAt cs j).map (fun d => max d 0)) i

def downAt (cs : List ℚ) (i : ℕ) : Option ℚ :=
  roll 14 (fun j => (deltaAt cs j).map (fun d => -(min d 0))) i

/-- `(up/down).replace([inf,-inf], nan).fillna(0)`: a defined ratio with a
nonzero denominator survives; an infinite ratio (zero average loss) and a
not-yet-warm NaN are both replaced by 0. -/
def rsFilledAt (cs : List ℚ) (i : ℕ) : ℚ :=
  match upAt cs i, downAt cs i with
  | some u, some d => if d = 0 then 0 else u / d
  | _, _ => 0

def rsiAt (cs : List ℚ) (i : ℕ) : ℚ := 100 - 100 / (1 + rsFilledAt cs i)

/-- `ewm(span=s, adjust=False).mean()` recurrence: the value at index 0 is
the close itself, thereafter `e_i = a*c_i + (1-a)*e_(i-1)` with smoothing
factor `a = 2/(span+1)`. -/
def emaRec (a : ℚ) (cs : List ℚ) : ℕ → ℚ
  | 0 => getQ cs 0
  | i + 1 => a * getQ cs (i + 1) + (1 - a) * emaRec a cs i

def emaAt (span : ℕ) (cs : List ℚ) (i : ℕ) : ℚ :=
  if i < cs.length then emaRec (2 / ((span : ℚ) + 1)) cs i else 0

def colQ (f : Candle → ℚ) (df : List Candle) (i : ℕ) : ℚ :=
  ((df.get? i).map f).getD 0

/-- True range with previous close; row 0 degenerates to `high - low`. -/
def trAt (df : List Candle) : ℕ → ℚ
  | 0 => colQ Candle.hi df 0 - colQ Candle.lo df 0
  | j + 1 => max (colQ Candle.hi df (j + 1)) (colQ Candle.cl df j)
      - min (colQ Candle.lo df (j + 1)) (colQ Candle.cl df j)

def atrAt (df : List Candle) (i : ℕ) : Option ℚ :=
  roll 14 (fun j => if j < df.length then some (trAt df j) else none) i

/-- Fuel-bounded integer Newton iteration for the square root (128 steps
cover every input whose bit length is below 128, far beyond any value
occurring here). -/
def isqrtAux (n : ℕ) : ℕ → ℕ → ℕ
  | 0, guess => guess
  | fuel + 1, guess =>
    let next := (guess + n / guess) / 2
    if next < guess then isqrtAux n fuel next else guess

def isqrtN (n : ℕ) : ℕ := if n ≤ 1 then n else isqrtAux n 128 n

/-- Nonnegative rational stand-in for the real square root (exact on
squares of naturals over square denominators, an under-approximation
elsewhere).  Only its nonnegativity is relied upon. -/
def sqrtQ (q : ℚ) : ℚ :=
  if q ≤ 0 then 0 else (isqrtN (q.num.toNat * q.den) : ℚ) / (q.den : ℚ)

def meanQ (xs : List ℚ) : ℚ := xs.sum / (xs.length : ℚ)

def sampleVarQ (xs : List ℚ) : ℚ :=
  ((xs.map (fun x => (x - meanQ xs) ^ 2)).sum) / ((xs.length : ℚ) - 1)

def rollSampleStd (w : ℕ) (f : ℕ → Option ℚ) (i : ℕ) : Option ℚ :=
  if w ≤ i + 1 then
    let vs := (List.range w).map (fun j => f (i + 1 - w + j))
    if vs.all Option.isSome then some (sqrtQ (sampleVarQ (vs.filterMap id)))
    else none
  else none

def std5At (cs : List ℚ) (i : ℕ) : ℚ := (rollSampleStd 5 (pctAt cs) i).getD 0

def mom5At (cs : List ℚ) (i : ℕ) : Option ℚ :=
  if 5 ≤ i ∧ i < cs.length then some (getQ cs i - getQ cs (i - 5)) else none

structure FeatRow where
  ts : ℤ
  op : ℚ
  hi : ℚ
  lo : ℚ
  cl : ℚ
  vol : ℚ
  ret1 : ℚ
  ema8 : ℚ
  ema21 : ℚ
  ema50 : ℚ
  rsi14 : ℚ
  atr14 : ℚ
  std5 : ℚ
  mom5 : ℚ
deriving DecidableEq, Repr, Inhabited

/-- The fallback `compute_features`: requires at least 3 rows, derives the
indicator columns and keeps exactly the rows on which every column is
defined (`dropna`). -/
def computeFeatures (df : List Candle) : List FeatRow :=
  if df.length < 3 then []
  else
    (List.range df.length).filterMap (fun i =>
      match df.get? i, pctAt (df.map Candle.cl) i, atrAt df i,
          mom5At (df.map Candle.cl) i with
      | some cand, some r1, some a, some m =>
        some ⟨cand.ts, cand.op, cand.hi, cand.lo, cand.cl, cand.vol, r1,
              emaAt 8 (df.map Candle.cl) i, emaAt 21 (df.map Candle.cl) i,
              emaAt 50 (df.map Candle.cl) i, rsiAt (df.map Candle.cl) i, a,
              std5At (df.map Candle.cl) i, m⟩
      | _, _, _, _ => none)

/-- Input with monotonically increasing closes (all 14 trailing deltas are
+1): the 14-period average loss is 0 and the average gain is positive. -/
def c3df : List Candle :=
  [⟨0, 1, 1, 1, 1, 0⟩,
   ⟨1, 2, 2, 2, 2, 0⟩,
   ⟨2, 3, 3, 3, 3, 0⟩,
   ⟨3, 4, 4, 4, 4, 0⟩,
   ⟨4, 5, 5, 5, 5, 0⟩,
   ⟨5, 6, 6, 6, 6, 0⟩,
   ⟨6, 7, 7, 7, 7, 0⟩,
   ⟨7, 8, 8, 8, 8, 0⟩,
   ⟨8, 9, 9, 9, 9, 0⟩,
   ⟨9, 10, 10, 10, 10, 0⟩,
   ⟨10, 11, 11, 11, 11, 0⟩,
   ⟨11, 12, 12, 12, 12, 0⟩,
   ⟨12, 13, 13, 13, 13, 0⟩,
   ⟨13, 14, 14, 14, 14, 0⟩,
   ⟨14, 15, 15, 15, 15, 0⟩,
   ⟨15, 16, 16, 16, 16, 0⟩]

/-- C3: on a series whose last 14 deltas are all +1 (average loss 0, average
gain 1) the fallback path computes `rsi14 = 0` for the last row, not 100:
`up/down` is `+inf`, `.replace([inf,-inf], nan).fillna(0)` turns it into
ratio 0, and `100 - 100/(1+0) = 0`.  The spec's guard (RSI = 100 when the
average loss is zero, the standard convention) is what the code was meant to
implement; producing the opposite extreme (RSI 0 = maximally oversold) on a
pure uptrend contradicts that intent. -/
theorem c3_rsi_zero_loss_guard :
    ((computeFeatures c3df).getLast?).map FeatRow.rsi14 = some 0
    ∧ ((computeFeatures c3df).getLast?).map FeatRow.rsi14 ≠ some 100 :=
  of_decide_eq_true (by with_unfolding_all rfl)

/-! ## Heuristic signal engine (`heuristic_signal_from_df`, server.py 414-442)

Float constants 1.2, 2.4, 0.55, 0.95, 0.3, 1e-8 are the exact rationals
6/5, 12/5, 11/20, 19/20, 3/10, 1/10^8.  After `dropna` the last feature
row's `atr14` cannot be NaN, so the `np.isnan(atr) or atr == 0` clamp
reduces to the `atr == 0` test. -/

structure SignalOut where
  label : String
  confidence : ℚ
  entry : ℚ
  sl : ℚ
  tp : ℚ
deriving DecidableEq, Repr

def diffsQ (xs : List ℚ) : List ℚ :=
  List.zipWith (fun a b => a - b) (xs.drop 1) xs

/-- `np.std` (population, ddof=0) squared. -/
def popVarQ (xs : List ℚ) : ℚ :=
  ((xs.map (fun x => (x - meanQ xs) ^ 2)).sum) / (xs.length : ℚ)

/-- `max(np.std(df["close"].diff().dropna()) * 2, 1e-8)`. -/
def stdFallback (df : List Candle) : ℚ :=
  max (2 * sqrtQ (popVarQ (diffsQ (df.map Candle.cl)))) (1 / 100000000)

/-- The ATR value the signal engines actually use: `atr14` of the last
feature row, replaced by the clamped std proxy when it is zero (or NaN,
which cannot survive `dropna`).  A *negative* `atr14` passes through. -/
def heurAtr (df : List Candle) : ℚ :=
  match (computeFeatures df).getLast? with
  | none => 0
  | some last => if last.atr14 = 0 then stdFallback df else last.atr14

def heurLabel (r : FeatRow) : String :=
  if r.ema8 > r.ema21 ∧ r.ema21 > r.ema50 ∧ r.rsi14 > 50 then "long"
  else if r.ema8 < r.ema21 ∧ r.ema21 < r.ema50 ∧ r.rsi14 < 50 then "short"
  else "none"

def heurSl (label : String) (entry atr : ℚ) : ℚ :=
  if label = "long" then entry - 6 / 5 * atr
  else if label = "short" then entry + 6 / 5 * atr
  else 0

def heurTp (label : String) (entry atr : ℚ) : ℚ :=
  if label = "long" then entry + 12 / 5 * atr
  else if label = "short" then entry - 12 / 5 * atr
  else 0

def heurConf (label : String) (r : FeatRow) : ℚ :=
  if label ≠ "none" then
    min (19 / 20)
      (11 / 20 + (|r.ema8 - r.ema50| / (if r.ema50 = 0 then 1 else r.ema50)) * 5
        + (|r.rsi14 - 50| / 50) * (3 / 10))
  else 1 / 2

def heuristicSignalFromDf (df : List Candle) : SignalOut :=
  match df.getLast? with
  | none => ⟨"none", 0, 0, 0, 0⟩
  | some lastC =>
    match (computeFeatures df).getLast? with
    | none => ⟨"none", 0, lastC.cl, 0, 0⟩
    | some last =>
      ⟨heurLabel last, heurConf (heurLabel last) last, lastC.cl,
       heurSl (heurLabel last) lastC.cl (heurAtr df),
       heurTp (heurLabel last) lastC.cl (heurAtr df)⟩

lemma mem_of_getLast_eq_some {α : Type} {l : List α} {a : α}
    (h : l.getLast? = some a) : a ∈ l := by
  rcases List.mem_getLast?_eq_getLast (Option.mem_def.mpr h) with ⟨hne, heq⟩
  exact heq ▸ List.getLast_mem hne

lemma roll_nonneg {w : ℕ} {f : ℕ → Option ℚ} {i : ℕ} {a : ℚ}
    (hf : ∀ j x, f j = some x → 0 ≤ x) (h : roll w f i = some a) : 0 ≤ a := by
  unfold roll at h
  split at h
  · dsimp only at h
    split at h
    · rcases Option.some.inj h with rfl
      apply div_nonneg
      · apply List.sum_nonneg
        intro x hx
        rcases List.mem_filterMap.mp hx with ⟨o, ho, hid⟩
        rcases List.mem_map.mp ho with ⟨j, _, hj⟩
        exact hf _ x (by rw [hj]; exact hid)
      · positivity
    · cases h
  · cases h

lemma trAt_nonneg {df : List Candle}
    (h0 : colQ Candle.lo df 0 ≤ colQ Candle.hi df 0) :
    ∀ j, 0 ≤ trAt df j := by
  intro j
  cases j with
  | zero => simp [trAt]; linarith
  | succ k =>
    have h1 : min (colQ Candle.lo df (k + 1)) (colQ Candle.cl df k)
        ≤ max (colQ Candle.hi df (k + 1)) (colQ Candle.cl df k) :=
      le_trans (min_le_right _ _) (le_max_right _ _)
    simp only [trAt]
    exact sub_nonneg.mpr h1

lemma computeFeatures_atrAt {df : List Candle} {r : FeatRow}
    (hmem : r ∈ computeFeatures df) : ∃ i, atrAt df i = some r.atr14 := by
  unfold computeFeatures at hmem
  split at hmem
  · cases hmem
  · rcases List.mem_filterMap.mp hmem with ⟨i, _, heq⟩
    refine ⟨i, ?_⟩
    revert heq
    cases hdf : df.get? i <;> cases hp : pctAt (df.map Candle.cl) i
      <;> cases ha : atrAt df i <;> cases hm : mom5At (df.map Candle.cl) i
      <;> intro heq <;> simp at heq
    rw [← heq]

lemma atr_last_nonneg {df : List Candle} {r : FeatRow}
    (hr : (computeFeatures df).getLast? = some r)
    (h0 : colQ Candle.lo df 0 ≤ colQ Candle.hi df 0) : 0 ≤ r.atr14 := by
  rcases computeFeatures_atrAt (mem_of_getLast_eq_some hr) with ⟨i, hi⟩
  refine roll_nonneg ?_ hi
  intro j x hx
  by_cases hj : j < df.length
  · simp only [hj, if_pos] at hx
    rcases Option.some.inj hx with rfl
    exact trAt_nonneg h0 j
  · simp [hj] at hx

lemma heurAtr_pos {df : List Candle} {r : FeatRow}
    (hr : (computeFeatures df).getLast? = some r)
    (h0 : colQ Candle.lo df 0 ≤ colQ Candle.hi df 0) : 0 < heurAtr df := by
  unfold heurAtr
  rw [hr]
  dsimp only
  by_cases hz : r.atr14 = 0
  · rw [if_pos hz]
    calc (0 : ℚ) < 1 / 100000000 := by norm_num
    _ ≤ stdFallback df := le_max_right _ _
  · rw [if_neg hz]
    exact lt_of_le_of_ne (atr_last_nonneg hr h0) (Ne.symm hz)

/-- A malformed first candle (high 0 < low 1000; the pipeline does not
enforce `low ≤ high`) on an otherwise clean 14-row downtrend:
`atr14 = (-1000 + 13)/14 < 0` at the only surviving feature row, the clamp
(`NaN or 0` only) lets the negative value through. -/
def c7dfBad : List Candle :=
  [⟨0, 100, 0, 1000, 100, 0⟩,
   ⟨1, 99, 99, 99, 99, 0⟩,
   ⟨2, 98, 98, 98, 98, 0⟩,
   ⟨3, 97, 97, 97, 97, 0⟩,
   ⟨4, 96, 96, 96, 96, 0⟩,
   ⟨5, 95, 95, 95, 95, 0⟩,
   ⟨6, 94, 94, 94, 94, 0⟩,
   ⟨7, 93, 93, 93, 93, 0⟩,
   ⟨8, 92, 92, 92, 92, 0⟩,
   ⟨9, 91, 91, 91, 91, 0⟩,
   ⟨10, 90, 90, 90, 90, 0⟩,
   ⟨11, 89, 89, 89, 89, 0⟩,
   ⟨12, 88, 88, 88, 88, 0⟩,
   ⟨13, 87, 87, 87, 87, 0⟩]

/-- C7 counterexample: on `c7dfBad` the heuristic labels `short` but the
stop is *below* the entry (the claim requires `tp < entry < sl` for every
short), because the ATR proxy is negative and only NaN/zero - not negative -
ATR is clamped positive. -/
theorem c7_heuristic_cex :
    (heuristicSignalFromDf c7dfBad).label = "short"
    ∧ (heuristicSignalFromDf c7dfBad).sl < (heuristicSignalFromDf c7dfBad).entry
    ∧ (heuristicSignalFromDf c7dfBad).entry < (heuristicSignalFromDf c7dfBad).tp :=
  of_decide_eq_true (by with_unfolding_all rfl)

/-- C7 (amended): provided the *first* candle satisfies `low ≤ high` (every
later true range is nonnegative by construction, so this makes the resolved
ATR strictly positive), the heuristic returns: label `long` with
`sl = entry - 1.2*ATR`, `tp = entry + 2.4*ATR` and `sl < entry < tp` when
the last feature row has `ema8 > ema21 > ema50` and `rsi14 > 50`; label
`short` with `sl = entry + 1.2*ATR`, `tp = entry - 2.4*ATR` and
`tp < entry < sl` in the mirrored case; label `none` with `sl = tp = 0`
otherwise.  Without the `low ≤ high` proviso a negative `atr14` can invert
the orderings (see the counterexample). -/
theorem c7_heuristic_signal (df : List Candle) (r : FeatRow)
    (hr : (computeFeatures df).getLast? = some r)
    (h0 : colQ Candle.lo df 0 ≤ colQ Candle.hi df 0) :
    ((r.ema8 > r.ema21 ∧ r.ema21 > r.ema50 ∧ r.rsi14 > 50) →
      (heuristicSignalFromDf df).label = "long"
      ∧ (heuristicSignalFromDf df).sl
          = (heuristicSignalFromDf df).entry - 6 / 5 * heurAtr df
      ∧ (heuristicSignalFromDf df).tp
          = (heuristicSignalFromDf df).entry + 12 / 5 * heurAtr df
      ∧ 0 < heurAtr df
      ∧ (heuristicSignalFromDf df).sl < (heuristicSignalFromDf df).entry
      ∧ (heuristicSignalFromDf df).entry < (heuristicSignalFromDf df).tp)
    ∧ ((r.ema8 < r.ema21 ∧ r.ema21 < r.ema50 ∧ r.rsi14 < 50) →
      (heuristicSignalFromDf df).label = "short"
      ∧ (heuristicSignalFromDf df).sl
          = (heuristicSignalFromDf df).entry + 6 / 5 * heurAtr df
      ∧ (heuristicSignalFromDf df).tp
          = (heuristicSignalFromDf df).entry - 12 / 5 * heurAtr df
      ∧ 0 < heurAtr df
      ∧ (heuristicSignalFromDf df).tp < (heuristicSignalFromDf df).entry
      ∧ (heuristicSignalFromDf df).entry < (heuristicSignalFromDf df).sl)
    ∧ ((¬ (r.ema8 > r.ema21 ∧ r.ema21 > r.ema50 ∧ r.rsi14 > 50))
        ∧ (¬ (r.ema8 < r.ema21 ∧ r.ema21 < r.ema50 ∧ r.rsi14 < 50)) →
      (heuristicSignalFromDf df).label = "none"
      ∧ (heuristicSignalFromDf df).sl = 0
      ∧ (heuristicSignalFromDf df).tp = 0) := by
  have hdfne : df ≠ [] := by
    intro hnil
    rw [hnil] at hr
    simp [computeFeatures] at hr
  have hatr := heurAtr_pos hr h0
  obtain ⟨lastC, hL⟩ : ∃ c, df.getLast? = some c := by
    cases hget : df.getLast? with
    | none => exact absurd (List.getLast?_eq_none_iff.mp hget) hdfne
    | some c => exact ⟨c, rfl⟩
  have hout : heuristicSignalFromDf df
      = ⟨heurLabel r, heurConf (heurLabel r) r, lastC.cl,
         heurSl (heurLabel r) lastC.cl (heurAtr df),
         heurTp (heurLabel r) lastC.cl (heurAtr df)⟩ := by
    unfold heuristicSignalFromDf
    rw [hL, hr]
  refine ⟨?_, ?_, ?_⟩
  · intro hcond
    have hlab : heurLabel r = "long" := by
      unfold heurLabel
      rw [if_pos hcond]
    have hsl : heurSl "long" lastC.cl (heurAtr df)
        = lastC.cl - 6 / 5 * heurAtr df := by
      simp [heurSl]
    have htp : heurTp "long" lastC.cl (heurAtr df)
        = lastC.cl + 12 / 5 * heurAtr df := by
      simp [heurTp]
    rw [hout]
    dsimp only
    rw [hlab, hsl, htp]
    exact ⟨rfl, rfl, rfl, hatr, by linarith, by linarith⟩
  · intro hcond
    have hnotlong : ¬ (r.ema8 > r.ema21 ∧ r.ema21 > r.ema50 ∧ r.rsi14 > 50) := by
      rintro ⟨hgt, -, -⟩
      exact absurd hcond.1 (not_lt.mpr (le_of_lt hgt))
    have hlab : heurLabel r = "short" := by
      unfold heurLabel
      rw [if_neg hnotlong, if_pos hcond]
    have hsl : heurSl "short" lastC.cl (heurAtr df)
        = lastC.cl + 6 / 5 * heurAtr df := by
      simp [heurSl]
    have htp : heurTp "short" lastC.cl (heurAtr df)
        = lastC.cl - 12 / 5 * heurAtr df := by
      simp [heurTp]
    rw [hout]
    dsimp only
    rw [hlab, hsl, htp]
    exact ⟨rfl, rfl, rfl, hatr, by linarith, by linarith⟩
  · rintro ⟨hn1, hn2⟩
    have hlab : heurLabel r = "none" := by
      unfold heurLabel
      rw [if_neg hn1, if_neg hn2]
    have hsl : heurSl "none" lastC.cl (heurAtr df) = 0 := by
      simp [heurSl]
    have htp : heurTp "none" lastC.cl (heurAtr df) = 0 := by
      simp [heurTp]
    rw [hout]
    dsimp only
    rw [hlab, hsl, htp]
    exact ⟨rfl, rfl, rfl⟩

/-- 16-row uptrend (one small pullback keeps the average loss nonzero so
`rsi14` is high but finite) on which the long conditions hold. -/
def c7dfW : List Candle :=
  [⟨0, 10, 10, 10, 10, 0⟩,
   ⟨1, 12, 12, 12, 12, 0⟩,
   ⟨2, 14, 14, 14, 14, 0⟩,
   ⟨3, 16, 16, 16, 16, 0⟩,
   ⟨4, 18, 18, 18, 18, 0⟩,
   ⟨5, 20, 20, 20, 20, 0⟩,
   ⟨6, 22, 22, 22, 22, 0⟩,
   ⟨7, 24, 24, 24, 24, 0⟩,
   ⟨8, 26, 26, 26, 26, 0⟩,
   ⟨9, 28, 28, 28, 28, 0⟩,
   ⟨10, 27, 27, 27, 27, 0⟩,
   ⟨11, 29, 29, 29, 29, 0⟩,
   ⟨12, 31, 31, 31, 31, 0⟩,
   ⟨13, 33, 33, 33, 33, 0⟩,
   ⟨14, 35, 35, 35, 35, 0⟩,
   ⟨15, 37, 37, 37, 37, 0⟩]

/-- The last feature row of `c7dfW`, written out. -/
def c7rW : FeatRow :=
  ⟨15, 37, 37, 37, 37, 0, 2 / 35, 6346705792740154 / 205891132094649,
   98087061953066067 / 4177248169415651,
   708479519920624396619493142 / 41072642160770556400888251, 2600 / 27,
   27 / 14, 974547114241 / 145551645768375, 10⟩

/-- Witness for C7 at the concrete uptrend input.  The last feature row is
evaluated field by field (one bounded computation per field). -/
theorem c7_heuristic_signal_witness :
    (heuristicSignalFromDf c7dfW).label = "long"
    ∧ (heuristicSignalFromDf c7dfW).sl < (heuristicSignalFromDf c7dfW).entry
    ∧ (heuristicSignalFromDf c7dfW).entry < (heuristicSignalFromDf c7dfW).tp := by
  have h8 : emaAt 8 (List.map Candle.cl c7dfW) 15
      = 6346705792740154 / 205891132094649 :=
    of_decide_eq_true (by with_unfolding_all rfl)
  have h21 : emaAt 21 (List.map Candle.cl c7dfW) 15
      = 98087061953066067 / 4177248169415651 :=
    of_decide_eq_true (by with_unfolding_all rfl)
  have h50 : emaAt 50 (List.map Candle.cl c7dfW) 15
      = 708479519920624396619493142 / 41072642160770556400888251 :=
    of_decide_eq_true (by with_unfolding_all rfl)
  have hrsi : rsiAt (List.map Candle.cl c7dfW) 15 = 2600 / 27 :=
    of_decide_eq_true (by with_unfolding_all rfl)
  have hstd : std5At (List.map Candle.cl c7dfW) 15
      = 974547114241 / 145551645768375 :=
    of_decide_eq_true (by with_unfolding_all rfl)
  have hsym : (computeFeatures c7dfW).getLast?
      = some ⟨15, 37, 37, 37, 37, 0, 2 / 35,
          emaAt 8 (List.map Candle.cl c7dfW) 15,
          emaAt 21 (List.map Candle.cl c7dfW) 15,
          emaAt 50 (List.map Candle.cl c7dfW) 15,
          rsiAt (List.map Candle.cl c7dfW) 15,
          27 / 14, std5At (List.map Candle.cl c7dfW) 15, 10⟩ := by
    with_unfolding_all rfl
  have hr : (computeFeatures c7dfW).getLast? = some c7rW := by
    rw [hsym, h8, h21, h50, hrsi, hstd]
    with_unfolding_all rfl
  have h := c7_heuristic_signal c7dfW c7rW hr
    (of_decide_eq_true (by with_unfolding_all rfl))
  have hc := h.1 (of_decide_eq_true (by with_unfolding_all rfl))
  exact ⟨hc.1, hc.2.2.2.2.1, hc.2.2.2.2.2⟩

/-! ## Model signal strategy (`model_predict_from_df`, server.py 444-471)

The classifier and its metadata are external collaborators: the model is
abstracted as a probability function (which may raise - `Except.error`) plus
its `classes_` vector, the metadata as the declared feature-column list and
the optional label map (`META.get("label_map", default)`).

Only the `MODEL.predict_proba(X)[0]` call is wrapped in `try:`; the
vectorization `featdf.iloc[[-1]][feat_cols].fillna(0)` (a `KeyError` when a
declared column is absent), `np.argmax` on an empty vector and the
`classes[idx]` lookup are *outside* it and raise to the caller.  `fillna(0)`
is a no-op here because rows that survived `dropna` have no NaN field. -/

def featColNames : List String :=
  ["timestamp", "open", "high", "low", "close", "volume", "ret_1", "ema8",
   "ema21", "ema50", "rsi14", "atr14", "std5", "mom5"]

def FeatRow.colVal (r : FeatRow) : String → Option ℚ
  | "timestamp" => some (r.ts : ℚ)
  | "open" => some r.op
  | "high" => some r.hi
  | "low" => some r.lo
  | "close" => some r.cl
  | "volume" => some r.vol
  | "ret_1" => some r.ret1
  | "ema8" => some r.ema8
  | "ema21" => some r.ema21
  | "ema50" => some r.ema50
  | "rsi14" => some r.rsi14
  | "atr14" => some r.atr14
  | "std5" => some r.std5
  | "mom5" => some r.mom5
  | _ => none

def buildX (r : FeatRow) : List String → Except String (List ℚ)
  | [] => .ok []
  | c :: cs =>
    match r.colVal c with
    | none => .error ("KeyError: " ++ c)
    | some v =>
      match buildX r cs with
      | .error e => .error e
      | .ok vs => .ok (v :: vs)

structure MLModel where
  predictProba : List ℚ → Except String (List ℚ)
  classes : List ℤ

structure ModelMeta where
  features : List String
  labelMap : Option (List (String × String))

def defaultLabelMap : List (String × String) :=
  [("0", "none"), ("1", "long"), ("2", "short")]

def lookupStr : List (String × String) → String → Option String
  | [], _ => none
  | (k, v) :: rest, key => if k = key then some v else lookupStr rest key

/-- `np.argmax`: first index attaining the maximum; raises on empty input. -/
def argmaxGo (bestIdx : ℕ) (best : ℚ) (i : ℕ) : List ℚ → ℕ
  | [] => bestIdx
  | y :: ys =>
    if best < y then argmaxGo i y (i + 1) ys else argmaxGo bestIdx best (i + 1) ys

def argmaxNp (probs : List ℚ) : Except String ℕ :=
  match probs with
  | [] => .error "attempt to get argmax of an empty sequence"
  | x :: xs => .ok (argmaxGo 0 x 1 xs)

def modelPredictFromDf (model : Option MLModel) (meta : Option ModelMeta)
    (df : List Candle) : Except String SignalOut :=
  match model, meta with
  | some m, some mt =>
    match (computeFeatures df).getLast? with
    | none => .ok (heuristicSignalFromDf df)
    | some last =>
      if mt.features = [] then .ok (heuristicSignalFromDf df)
      else
        match buildX last mt.features with
        | .error e => .error e
        | .ok x =>
          match m.predictProba x with
          | .error _ => .ok (heuristicSignalFromDf df)
          | .ok probs =>
            match argmaxNp probs with
            | .error e => .error e
            | .ok idx =>
              match m.classes.get? idx with
              | none => .error "IndexError: index out of range"
              | some cls =>
                let lm := mt.labelMap.getD defaultLabelMap
                let label := (lookupStr lm (toString cls)).getD "none"
                let confidence := probs.getD idx 0
                let lastClose := ((df.getLast?).map Candle.cl).getD 0
                .ok ⟨label, confidence, lastClose,
                     heurSl label lastClose (heurAtr df),
                     heurTp label lastClose (heurAtr df)⟩
  | _, _ => .ok (heuristicSignalFromDf df)

lemma colVal_isSome (r : FeatRow) {c : String} (h : c ∈ featColNames) :
    (r.colVal c).isSome = true := by
  fin_cases h <;> rfl

lemma buildX_ok (r : FeatRow) (cols : List String)
    (h : ∀ c ∈ cols, c ∈ featColNames) : ∃ vs, buildX r cols = .ok vs := by
  induction cols with
  | nil => exact ⟨[], rfl⟩
  | cons c cs ih =>
    have hc := colVal_isSome r (h c (List.mem_cons_self c cs))
    rcases Option.isSome_iff_exists.mp hc with ⟨v, hv⟩
    rcases ih (fun d hd => h d (List.mem_cons_of_mem c hd)) with ⟨vs, hvs⟩
    refine ⟨v :: vs, ?_⟩
    unfold buildX
    rw [hv, hvs]

/-- 14 constant candles: enough history for one feature row. -/
def c5df : List Candle :=
  [⟨0, 1, 1, 1, 1, 0⟩, ⟨1, 1, 1, 1, 1, 0⟩, ⟨2, 1, 1, 1, 1, 0⟩,
   ⟨3, 1, 1, 1, 1, 0⟩, ⟨4, 1, 1, 1, 1, 0⟩, ⟨5, 1, 1, 1, 1, 0⟩,
   ⟨6, 1, 1, 1, 1, 0⟩, ⟨7, 1, 1, 1, 1, 0⟩, ⟨8, 1, 1, 1, 1, 0⟩,
   ⟨9, 1, 1, 1, 1, 0⟩, ⟨10, 1, 1, 1, 1, 0⟩, ⟨11, 1, 1, 1, 1, 0⟩,
   ⟨12, 1, 1, 1, 1, 0⟩, ⟨13, 1, 1, 1, 1, 0⟩]

def c5modelOk : MLModel := ⟨fun _ => .ok [1], [0]⟩

def c5metaBogus : ModelMeta := ⟨["bogus"], none⟩

/-- C5 counterexample: with a loaded model and metadata declaring a feature
column that `compute_features` does not produce, the feature-vector assembly
(`featdf.iloc[[-1]][feat_cols]`) raises a `KeyError` that is *not* caught in
`model_predict_from_df`: the caller observes the exception instead of a
heuristic result. -/
theorem c5_model_fallback_cex :
    modelPredictFromDf (some c5modelOk) (some c5metaBogus) c5df
      = .error "KeyError: bogus" :=
  of_decide_eq_true (by with_unfolding_all rfl)

/-- C5 (amended): a failure during model *inference* (`predict_proba`) is
caught and falls back to the heuristic strategy transparently, provided the
declared feature columns all exist; a failure during feature-vector
*assembly* (a declared column absent from the computed features) raises to
the caller instead. -/
theorem c5_model_inference_fallback (m : MLModel) (mt : ModelMeta)
    (df : List Candle) (e : String)
    (hp : ∀ x, m.predictProba x = .error e)
    (hcols : ∀ c ∈ mt.features, c ∈ featColNames) :
    modelPredictFromDf (some m) (some mt) df = .ok (heuristicSignalFromDf df) := by
  unfold modelPredictFromDf
  cases hlast : (computeFeatures df).getLast? with
  | none => rfl
  | some last =>
    by_cases hf : mt.features = []
    · simp [hf]
    · rcases buildX_ok last mt.features hcols with ⟨vs, hvs⟩
      simp [hf, hvs, hp vs]

def c5modelBoom : MLModel := ⟨fun _ => .error "boom", [0]⟩

/-- Witness for C5 (amended) at a concrete failing model. -/
theorem c5_model_inference_fallback_witness :
    modelPredictFromDf (some c5modelBoom) (some ⟨["ema8"], none⟩) c5df
      = .ok (heuristicSignalFromDf c5df) :=
  c5_model_inference_fallback c5modelBoom ⟨["ema8"], none⟩ c5df "boom"
    (fun _ => rfl) (by decide)

/-! ## Orchestrator (`batch_predict`, server.py 474-568)

Per-timeframe processing is embedded as a pure function of the *outcome* of
the source-selection block (lines 490-533): either the block raised
(`raised`, e.g. the Binance adapter's `raise_for_status`, a CSV aggregation
error, or `candles_to_df` on malformed input), or no source applied at all
(`noSource`, the local-CSV-missing path that directly appends a `no-data`
Prediction), or it yielded `got df? src` - the optional frame and the
provenance tag assigned in that branch.  `src` is always one of the six
tags the code assigns; the `src or "heuristic"` default is dead because
every branch that reaches it has set `src`.

The `entry = float(pred.get("entry") or 0.0)` lines are the identity on the
numeric values produced here (`x or 0.0` maps `0.0` to `0.0` and is never
given `None`), so they are not modelled separately.  The whole loop body
sits in `try: ... except:`, which appends the `error:`-tagged zero
Prediction with the message truncated to 120 characters. -/

inductive SrcTag where
  | clientCandles
  | binanceRest
  | oandaRest
  | alphaVantage
  | localCsv (base : String)
  | noData
deriving DecidableEq, Repr

def srcStr : SrcTag → String
  | .clientCandles => "client-candles"
  | .binanceRest => "binance-rest"
  | .oandaRest => "oanda-rest"
  | .alphaVantage => "alpha-vantage"
  | .localCsv b => "local-csv:" ++ b
  | .noData => "no-data"

inductive FetchOutcome where
  | raised (msg : String)
  | noSource
  | got (df : Option (List RawRow)) (src : SrcTag)

structure Prediction where
  timeframe : String
  label : String
  confidence : ℚ
  entry : ℚ
  sl : ℚ
  tp : ℚ
  source : String
deriving DecidableEq, Repr

def noDataPred (tf : String) : Prediction := ⟨tf, "none", 0, 0, 0, 0, "no-data"⟩

def errorPred (tf e : String) : Prediction :=
  ⟨tf, "none", 0, 0, 0, 0, "error:" ++ e.take 120⟩

def SUPPORTED_TFS : List String := ["1m", "5m", "15m", "1h", "4h"]

def predOfSignal (tf src : String) (s : SignalOut) : Prediction :=
  ⟨tf, s.label, s.confidence, s.entry, s.sl, s.tp, src⟩

def processTFCore (model : Option MLModel) (meta : Option ModelMeta)
    (outcome : FetchOutcome) (tf : String) : Except String Prediction :=
  match outcome with
  | .raised e => .error e
  | .noSource => .ok (noDataPred tf)
  | .got odf src =>
    match odf with
    | none => .ok (noDataPred tf)
    | some df =>
      if df = [] then .ok (noDataPred tf)
      else
        if (cleanRows df).length < 50 then
          .ok (predOfSignal tf (srcStr src) (heuristicSignalFromDf (cleanRows df)))
        else
          match model with
          | some m =>
            match modelPredictFromDf (some m) meta (cleanRows df) with
            | .error e => .error e
            | .ok p => .ok (predOfSignal tf "model" p)
          | none =>
            .ok (predOfSignal tf (srcStr src) (heuristicSignalFromDf (cleanRows df)))

def processTF (model : Option MLModel) (meta : Option ModelMeta)
    (outcome : FetchOutcome) (tf : String) : Prediction :=
  match processTFCore model meta outcome tf with
  | .ok p => p
  | .error e => errorPred tf e

def batchPredict (model : Option MLModel) (meta : Option ModelMeta)
    (outcomes : String → FetchOutcome) (tfs : List String) :
    Except ℕ (List Prediction) :=
  -- `timeframes = req.timeframes or ["1m"]`: an empty list is replaced
  let timeframes := if tfs = [] then ["1m"] else tfs
  if timeframes.any (fun tf => !(SUPPORTED_TFS.contains tf)) then
    .error 400
  else
    .ok (timeframes.map (fun tf => processTF model meta (outcomes tf) tf))

lemma processTFCore_ok_timeframe {model : Option MLModel}
    {meta : Option ModelMeta} {outcome : FetchOutcome} {tf : String}
    {p : Prediction} (h : processTFCore model meta outcome tf = .ok p) :
    p.timeframe = tf := by
  unfold processTFCore at h
  rcases outcome with e | _ | ⟨odf, src⟩
  · cases h
  · cases h; rfl
  · rcases odf with _ | df
    · cases h; rfl
    · dsimp only at h
      split at h
      · cases h; rfl
      · split at h
        · cases h; rfl
        · rcases model with _ | m
          · cases h; rfl
          · dsimp only at h
            split at h
            · cases h
            · cases h; rfl

lemma processTF_timeframe (model : Option MLModel) (meta : Option ModelMeta)
    (outcome : FetchOutcome) (tf : String) :
    (processTF model meta outcome tf).timeframe = tf := by
  unfold processTF
  cases hc : processTFCore model meta outcome tf with
  | error e => rfl
  | ok p => exact processTFCore_ok_timeframe hc

lemma srcStr_ne_model (src : SrcTag) : srcStr src ≠ "model" := by
  cases src with
  | localCsv b =>
    intro h
    have hl := congrArg String.length h
    rw [show srcStr (SrcTag.localCsv b) = "local-csv:" ++ b from rfl,
      String.length_append] at hl
    have h10 : ("local-csv:" : String).length = 10 := rfl
    have h5 : ("model" : String).length = 5 := rfl
    omega
  | clientCandles => decide
  | binanceRest => decide
  | oandaRest => decide
  | alphaVantage => decide
  | noData => decide

/-- C6: a resolved series with fewer than 50 valid rows after cleaning is
answered by the heuristic strategy, tagged with the originating source tag -
and no source tag the orchestrator can assign on this path is the string
"model", even when a model is loaded. -/
theorem c6_insufficient_history (model : Option MLModel) (meta : Option ModelMeta)
    (df : List RawRow) (src : SrcTag) (tf : String)
    (hne : df ≠ []) (hlt : (cleanRows df).length < 50) :
    processTF model meta (.got (some df) src) tf
      = predOfSignal tf (srcStr src) (heuristicSignalFromDf (cleanRows df))
    ∧ (processTF model meta (.got (some df) src) tf).source ≠ "model" := by
  have h1 : processTFCore model meta (.got (some df) src) tf
      = .ok (predOfSignal tf (srcStr src) (heuristicSignalFromDf (cleanRows df))) := by
    unfold processTFCore
    dsimp only
    rw [if_neg hne, if_pos hlt]
  have h2 : processTF model meta (.got (some df) src) tf
      = predOfSignal tf (srcStr src) (heuristicSignalFromDf (cleanRows df)) := by
    unfold processTF
    rw [h1]
  refine ⟨h2, ?_⟩
  rw [h2]
  exact srcStr_ne_model src

def c6df : List RawRow :=
  [⟨0, some 1, some 1, some 1, some 1, some 1⟩,
   ⟨1, some 2, some 2, some 2, some 2, some 1⟩,
   ⟨2, some 3, some 3, some 3, some 3, some 1⟩]

def dummyModel : MLModel := ⟨fun _ => .ok [1], [0]⟩

/-- Witness for C6: three valid rows, a loaded model - still the heuristic
path and a non-"model" source tag. -/
theorem c6_insufficient_history_witness :
    processTF (some dummyModel) none (.got (some c6df) .binanceRest) "1m"
      = predOfSignal "1m" (srcStr .binanceRest)
          (heuristicSignalFromDf (cleanRows c6df))
    ∧ (processTF (some dummyModel) none (.got (some c6df) .binanceRest) "1m").source
      ≠ "model" :=
  c6_insufficient_history (some dummyModel) none c6df .binanceRest "1m"
    (by decide) (by decide)

/-- 50 fully-defined constant rows: enough cleaned history for the model
path. -/
def c10df : List RawRow :=
  [⟨0, some 1, some 1, some 1, some 1, some 0⟩,
   ⟨1, some 1, some 1, some 1, some 1, some 0⟩,
   ⟨2, some 1, some 1, some 1, some 1, some 0⟩,
   ⟨3, some 1, some 1, some 1, some 1, some 0⟩,
   ⟨4, some 1, some 1, some 1, some 1, some 0⟩,
   ⟨5, some 1, some 1, some 1, some 1, some 0⟩,
   ⟨6, some 1, some 1, some 1, some 1, some 0⟩,
   ⟨7, some 1, some 1, some 1, some 1, some 0⟩,
   ⟨8, some 1, some 1, some 1, some 1, some 0⟩,
   ⟨9, some 1, some 1, some 1, some 1, some 0⟩,
   ⟨10, some 1, some 1, some 1, some 1, some 0⟩,
   ⟨11, some 1, some 1, some 1, some 1, some 0⟩,
   ⟨12, some 1, some 1, some 1, some 1, some 0⟩,
   ⟨13, some 1, some 1, some 1, some 1, some 0⟩,
   ⟨14, some 1, some 1, some 1, some 1, some 0⟩,
   ⟨15, some 1, some 1, some 1, some 1, some 0⟩,
   ⟨16, some 1, some 1, some 1, some 1, some 0⟩,
   ⟨17, some 1, some 1, some 1, some 1, some 0⟩,
   ⟨18, some 1, some 1, some 1, some 1, some 0⟩,
   ⟨19, some 1, some 1, some 1, some 1, some 0⟩,
   ⟨20, some 1, some 1, some 1, some 1, some 0⟩,
   ⟨21, some 1, some 1, some 1, some 1, some 0⟩,
   ⟨22, some 1, some 1, some 1, some 1, some 0⟩,
   ⟨23, some 1, some 1, some 1, some 1, some 0⟩,
   ⟨24, some 1, some 1, some 1, some 1, some 0⟩,
   ⟨25, some 1, some 1, some 1, some 1, some 0⟩,
   ⟨26, some 1, some 1, some 1, some 1, some 0⟩,
   ⟨27, some 1, some 1, some 1, some 1, some 0⟩,
   ⟨28, some 1, some 1, some 1, some 1, some 0⟩,
   ⟨29, some 1, some 1, some 1, some 1, some 0⟩,
   ⟨30, some 1, some 1, some 1, some 1, some 0⟩,
   ⟨31, some 1, some 1, some 1, some 1, some 0⟩,
   ⟨32, some 1, some 1, some 1, some 1, some 0⟩,
   ⟨33, some 1, some 1, some 1, some 1, some 0⟩,
   ⟨34, some 1, some 1, some 1, some 1, some 0⟩,
   ⟨35, some 1, some 1, some 1, some 1, some 0⟩,
   ⟨36, some 1, some 1, some 1, some 1, some 0⟩,
   ⟨37, some 1, some 1, some 1, some 1, some 0⟩,
   ⟨38, some 1, some 1, some 1, some 1, some 0⟩,
   ⟨39, some 1, some 1, some 1, some 1, some 0⟩,
   ⟨40, some 1, some 1, some 1, some 1, some 0⟩,
   ⟨41, some 1, some 1, some 1, some 1, some 0⟩,
   ⟨42, some 1, some 1, some 1, some 1, some 0⟩,
   ⟨43, some 1, some 1, some 1, some 1, some 0⟩,
   ⟨44, some 1, some 1, some 1, some 1, some 0⟩,
   ⟨45, some 1, some 1, some 1, some 1, some 0⟩,
   ⟨46, some 1, some 1, some 1, some 1, some 0⟩,
   ⟨47, some 1, some 1, some 1, some 1, some 0⟩,
   ⟨48, some 1, some 1, some 1, some 1, some 0⟩,
   ⟨49, some 1, some 1, some 1, some 1, some 0⟩]
/-- C10 (amended): with a model loaded and at least 50 cleaned rows the
emitted Prediction's source is exactly "model" whenever the model-strategy
call returns - in particular also when inference failed internally and the
heuristic produced the result.  When the model-strategy call itself raises
(feature-vector assembly), the Prediction is error-tagged instead. -/
theorem c10_model_source_tag (m : MLModel) (meta : Option ModelMeta)
    (df : List RawRow) (src : SrcTag) (tf : String)
    (hne : df ≠ []) (hge : 50 ≤ (cleanRows df).length) :
    (∀ p, modelPredictFromDf (some m) meta (cleanRows df) = .ok p →
      processTF (some m) meta (.got (some df) src) tf = predOfSignal tf "model" p)
    ∧ (∀ e, modelPredictFromDf (some m) meta (cleanRows df) = .error e →
      processTF (some m) meta (.got (some df) src) tf = errorPred tf e) := by
  have hnl : ¬ (cleanRows df).length < 50 := not_lt.mpr hge
  constructor
  · intro p hp
    unfold processTF processTFCore
    dsimp only
    rw [if_neg hne, if_neg hnl, hp]
  · intro e he
    unfold processTF processTFCore
    dsimp only
    rw [if_neg hne, if_neg hnl, he]

/-- Witness for C10 (amended): model loaded, metadata absent, 50 constant
rows - the model strategy silently answers with the heuristic result and
the orchestrator still tags the Prediction "model". -/
theorem c10_model_source_tag_witness :
    processTF (some dummyModel) none (.got (some c10df) .clientCandles) "1m"
      = predOfSignal "1m" "model" (heuristicSignalFromDf (cleanRows c10df)) :=
  (c10_model_source_tag dummyModel none c10df .clientCandles "1m"
    (by decide) (of_decide_eq_true (by with_unfolding_all rfl))).1
    (heuristicSignalFromDf (cleanRows c10df)) rfl

def c10metaBogus : ModelMeta := ⟨["bogus"], none⟩

/-- C10 counterexample: model loaded, ≥50 cleaned rows, but the metadata
declares an unknown feature column - the vectorization `KeyError` escapes
`model_predict_from_df` and the per-timeframe handler tags the Prediction
`error:KeyError: bogus`, not "model". -/
theorem c10_model_source_tag_cex :
    (processTF (some dummyModel) (some c10metaBogus)
        (.got (some c10df) .clientCandles) "1m").source = "error:KeyError: bogus"
    ∧ (processTF (some dummyModel) (some c10metaBogus)
        (.got (some c10df) .clientCandles) "1m").source ≠ "model"
    ∧ 50 ≤ (cleanRows c10df).length :=
  of_decide_eq_true (by with_unfolding_all rfl)

/-- C1 counterexample: an empty - but per-element valid - timeframe list is
replaced by the default `["1m"]` (`timeframes = req.timeframes or ["1m"]`),
so the response carries one Prediction although zero were requested: not
"exactly one Prediction per requested timeframe". -/
theorem c1_batch_isolation_cex :
    batchPredict none none (fun _ => FetchOutcome.noSource) []
      = .ok [⟨"1m", "none", 0, 0, 0, 0, "no-data"⟩]
    ∧ ((batchPredict none none (fun _ => FetchOutcome.noSource) []).toOption.map
        List.length) = some 1 :=
  of_decide_eq_true (by with_unfolding_all rfl)

lemma any_unsupported_false {tfs : List String}
    (h2 : ∀ tf ∈ tfs, tf ∈ SUPPORTED_TFS) :
    tfs.any (fun tf => !(SUPPORTED_TFS.contains tf)) = false := by
  rw [List.any_eq_false]
  intro x hx
  simp only [Bool.not_eq_true', Bool.not_eq_false]
  exact List.elem_eq_true_of_mem (h2 x hx)

/-- C1 (amended): for every *nonempty* batch request whose timeframes are
all supported, the response has exactly one Prediction per requested
timeframe, in request order; a per-timeframe exception is caught and turned
into the zero Prediction tagged `error:<message truncated to 120>`, and
every other timeframe's Prediction is computed independently of it.  (An
empty timeframe list is replaced by the default `["1m"]` - see the
counterexample.) -/
theorem c1_batch_isolation (model : Option MLModel) (meta : Option ModelMeta)
    (outcomes : String → FetchOutcome) (tfs : List String)
    (h1 : tfs ≠ []) (h2 : ∀ tf ∈ tfs, tf ∈ SUPPORTED_TFS) :
    batchPredict model meta outcomes tfs
      = .ok (tfs.map (fun tf => processTF model meta (outcomes tf) tf))
    ∧ (tfs.map (fun tf => processTF model meta (outcomes tf) tf)).length
      = tfs.length
    ∧ (∀ i : ℕ,
        ((tfs.map (fun tf => processTF model meta (outcomes tf) tf))[i]?).map
          Prediction.timeframe = tfs[i]?)
    ∧ (∀ tf e, processTFCore model meta (outcomes tf) tf = .error e →
        processTF model meta (outcomes tf) tf
          = ⟨tf, "none", 0, 0, 0, 0, "error:" ++ e.take 120⟩) := by
  refine ⟨?_, List.length_map _ _, ?_, ?_⟩
  · unfold batchPredict
    rw [if_neg h1]
    dsimp only
    rw [any_unsupported_false h2]
    rfl
  · intro i
    rw [List.getElem?_map]
    cases hx : tfs[i]? with
    | none => rfl
    | some tf =>
      simp only [Option.map_some']
      rw [processTF_timeframe]
  · intro tf e he
    unfold processTF
    rw [he]
    rfl

def c1outs : String → FetchOutcome :=
  fun tf => if tf = "5m" then .raised "boom" else .noSource

/-- Witness for C1 (amended) on the request `["1m","5m"]` where the 5m
timeframe raises. -/
theorem c1_batch_isolation_witness :
    batchPredict none none c1outs ["1m", "5m"]
      = .ok (["1m", "5m"].map (fun tf => processTF none none (c1outs tf) tf)) :=
  (c1_batch_isolation none none c1outs ["1m", "5m"] (by decide)
    (by decide)).1

/-! ## Source adapters (server.py 119-140, 190-297, 301-375)

Each adapter is embedded as a pure function of: the cache-lookup result for
its key (`cached`), and the HTTP outcome (`resp`), an `Except` carrying the
transport failure (timeout, connection error - in Python an exception from
`httpx`) or the status code and parsed JSON body.  Symbol/URL formatting
feeds only the request and the cache key, both abstracted by these
parameters.

* Binance (`fetch_binance_klines`): **no** try/except - a transport error
  propagates, and `r.raise_for_status()` raises on any non-2xx status.  The
  adapter never returns an absent result: its type is `Except`, not
  `Option`.
* OANDA (`fetch_oanda_candles`): every failure - missing token, unsupported
  granularity, transport error, non-200 status, no usable candles - yields
  `None`.  A candle without a `time` field is skipped; a missing price
  object / price field becomes NaN (`safe_float`), not zero.
* AlphaVantage (`fetch_alpha_vantage_candles`): missing key, malformed
  instrument, unsupported interval, transport error or non-2xx status
  (`raise_for_status` inside `try`), a rate-limit `Note`, an
  `Error Message`, a missing `Time Series` key and an empty row set all
  yield `None`.  An entry with an unparsable timestamp or an unparsable
  numeric field is skipped (`continue`); a *missing* field is kept as NaN.
  For `4h` the 60-minute rows are resampled to 4 hours with the same
  OHLCV reduction; the result is truncated to the most recent `limit`
  rows. -/

structure BKline where
  openTime : ℤ
  o : ℚ
  h : ℚ
  l : ℚ
  c : ℚ
  v : ℚ
deriving DecidableEq, Repr

def fetchBinanceKlines (cached : Option (List RawRow))
    (resp : Except String (ℕ × List BKline)) : Except String (List RawRow) :=
  match cached with
  | some d => .ok d
  | none =>
    match resp with
    | .error e => .error e
    | .ok (status, data) =>
      if 200 ≤ status ∧ status < 300 then
        .ok (data.map (fun k =>
          ⟨k.openTime, some k.o, some k.h, some k.l, some k.c, some k.v⟩))
      else
        .error ("HTTPStatusError: " ++ toString status)

def rawLe (a b : RawRow) : Prop := a.ts ≤ b.ts

instance : DecidableRel rawLe := fun a b => inferInstanceAs (Decidable (a.ts ≤ b.ts))

instance : IsTotal RawRow rawLe := ⟨fun a b => Int.le_total a.ts b.ts⟩

instance : IsTrans RawRow rawLe := ⟨fun _ _ _ hab hbc => le_trans hab hbc⟩

def sortRawByTs (rows : List RawRow) : List RawRow :=
  List.insertionSort rawLe rows

structure PriceObj where
  o : Option ℚ
  h : Option ℚ
  l : Option ℚ
  c : Option ℚ
deriving DecidableEq, Repr

structure OandaCandle where
  time : Option ℤ
  mid : Option PriceObj
  midpoint : Option PriceObj
  volume : ℤ
deriving DecidableEq, Repr

structure OandaResp where
  candles : List OandaCandle
deriving DecidableEq, Repr

def oandaGranMap : String → Option String
  | "1m" => some "M1"
  | "5m" => some "M5"
  | "15m" => some "M15"
  | "1h" => some "H1"
  | "4h" => some "H4"
  | _ => none

def oandaRowOf (c : OandaCandle) : Option RawRow :=
  match c.time with
  | none => none
  | some t =>
    -- `price_obj = c.get("mid") or c.get("midpoint") or {}` then `safe_float`
    let po := c.mid.orElse (fun _ => c.midpoint)
    some ⟨t, po.bind PriceObj.o, po.bind PriceObj.h, po.bind PriceObj.l,
          po.bind PriceObj.c, some (c.volume : ℚ)⟩

def fetchOandaCandles (token : Option String) (granularity : String)
    (cached : Option (List RawRow)) (resp : Except String (ℕ × OandaResp)) :
    Option (List RawRow) :=
  match token with
  | none => none
  | some _ =>
    match oandaGranMap granularity with
    | none => none
    | some _ =>
      match cached with
      | some d => some d
      | none =>
        match resp with
        | .error _ => none
        | .ok (status, js) =>
          if status ≠ 200 then none
          else
            let rows := js.candles.filterMap oandaRowOf
            if rows = [] then none
            else some (sortRawByTs rows)

structure AVEntry where
  ts : Option ℤ
  parseOk : Bool
  op : Option ℚ
  hi : Option ℚ
  lo : Option ℚ
  cl : Option ℚ
deriving DecidableEq, Repr

structure AVResp where
  note : Option String
  errorMessage : Option String
  timeSeries : Option (List AVEntry)
deriving DecidableEq, Repr

def ALPHA_INTERVAL_MAP : String → Option String
  | "1m" => some "1min"
  | "5m" => some "5min"
  | "15m" => some "15min"
  | "1h" => some "60min"
  | _ => none

/-- `inst_raw = symbol.split(":",1)[1] if ":" in symbol else symbol` then
`replace("_","").upper()`. -/
def alphaInst (symbol : String) : String :=
  let instRaw :=
    if symbol.contains ':' then
      String.intercalate ":" (symbol.splitOn ":").tail
    else symbol
  (instRaw.replace "_" "").toUpper

def avRowOf (e : AVEntry) : Option RawRow :=
  match e.ts with
  | none => none
  | some t =>
    if e.parseOk then some ⟨t, e.op, e.hi, e.lo, e.cl, some 0⟩ else none

def fetchAlphaVantageCandles (key : Option String) (symbol : String)
    (interval : String) (limit : ℕ) (cached : Option (List RawRow))
    (resp : Except String (ℕ × AVResp)) : Option (List RawRow) :=
  match key with
  | none => none
  | some _ =>
    if (alphaInst symbol).length < 6 then none
    else if (ALPHA_INTERVAL_MAP interval).isNone ∧ interval ≠ "4h" then none
    else
      match cached with
      | some d => some d
      | none =>
        match resp with
        | .error _ => none
        | .ok (status, js) =>
          if ¬ (200 ≤ status ∧ status < 300) then none
          else if js.note.isSome then none
          else if js.errorMessage.isSome then none
          else
            match js.timeSeries with
            | none => none
            | some entries =>
              let rows := entries.filterMap avRowOf
              if rows = [] then none
              else
                let df := sortRawByTs rows
                let df :=
                  if interval = "4h" then
                    resampleOHLCV (resampleOHLCV df 60) 240
                  else df
                some (if limit < df.length then df.drop (df.length - limit) else df)

/-- C4 counterexample: on a non-200 response the Binance adapter *raises*
(`raise_for_status`; the fetch result is an exception, not an absent/"no
data" value), and the Orchestrator converts that exception into an
`error:`-tagged Prediction - not into `source="no-data"`. -/
theorem c4_binance_raises_cex :
    fetchBinanceKlines none (.ok (500, [])) = .error "HTTPStatusError: 500"
    ∧ (processTF none none (.raised "HTTPStatusError: 500") "1m").source
      = "error:HTTPStatusError: 500"
    ∧ (processTF none none (.raised "HTTPStatusError: 500") "1m").source
      ≠ "no-data" :=
  of_decide_eq_true (by with_unfolding_all rfl)

/-- C4 (amended): the OANDA and AlphaVantage adapters return absent (not an
error) when the provider is unconfigured, the transport fails, the status is
non-200 (non-2xx for AlphaVantage), a rate-limit `Note` or an
`Error Message` is present, or no usable rows come back; the Orchestrator
then emits the zero-valued Prediction with source "no-data".  The Binance
adapter is the exception: it raises on transport failure and non-2xx status
(see the counterexample). -/
theorem c4_adapter_absent_signals :
    (∀ gran cached resp, fetchOandaCandles none gran cached resp = none)
    ∧ (∀ tok gran e, fetchOandaCandles (some tok) gran none (.error e) = none)
    ∧ (∀ tok gran g st js, oandaGranMap gran = some g → st ≠ 200 →
        fetchOandaCandles (some tok) gran none (.ok (st, js)) = none)
    ∧ (∀ tok gran g js, oandaGranMap gran = some g →
        (∀ c ∈ js.candles, c.time = none) →
        fetchOandaCandles (some tok) gran none (.ok (200, js)) = none)
    ∧ (∀ sym interval limit cached resp,
        fetchAlphaVantageCandles none sym interval limit cached resp = none)
    ∧ (∀ k sym interval limit e,
        fetchAlphaVantageCandles (some k) sym interval limit none (.error e) = none)
    ∧ (∀ k sym interval limit st js, ¬ (200 ≤ st ∧ st < 300) →
        fetchAlphaVantageCandles (some k) sym interval limit none (.ok (st, js)) = none)
    ∧ (∀ k sym interval limit js n, js.note = some n →
        fetchAlphaVantageCandles (some k) sym interval limit none (.ok (200, js)) = none)
    ∧ (∀ k sym interval limit js, js.note = none → js.errorMessage = none →
        js.timeSeries = some [] →
        fetchAlphaVantageCandles (some k) sym interval limit none (.ok (200, js)) = none)
    ∧ (∀ model meta tf, processTF model meta (.got none .noData) tf = noDataPred tf
        ∧ (noDataPred tf).source = "no-data") := by
  refine ⟨fun _ _ _ => rfl, ?_, ?_, ?_, fun _ _ _ _ _ => rfl, ?_, ?_, ?_, ?_, ?_⟩
  · intro tok gran e
    unfold fetchOandaCandles
    cases hg : oandaGranMap gran <;> rfl
  · intro tok gran g st js hg hst
    unfold fetchOandaCandles
    rw [hg]
    simp [hst]
  · intro tok gran g js hg hnone
    unfold fetchOandaCandles
    rw [hg]
    have hrows : js.candles.filterMap oandaRowOf = [] := by
      refine List.filterMap_eq_nil_iff.mpr ?_
      intro c hc
      unfold oandaRowOf
      rw [hnone c hc]
    simp [hrows]
  · intro k sym interval limit e
    unfold fetchAlphaVantageCandles
    split
    · rfl
    · split
      · rfl
      · simp
  · intro k sym interval limit st js hst
    unfold fetchAlphaVantageCandles
    split
    · rfl
    · split
      · rfl
      · simp [hst]
  · intro k sym interval limit js n hn
    unfold fetchAlphaVantageCandles
    split
    · rfl
    · split
      · rfl
      · simp [hn]
  · intro k sym interval limit js h1 h2 h3
    unfold fetchAlphaVantageCandles
    split
    · rfl
    · split
      · rfl
      · simp [h1, h2, h3]
  · intro model meta tf
    exact ⟨rfl, rfl⟩

/-- Witness for C4 (amended) at concrete inputs: missing token, transport
error, HTTP 500, rate-limit note, empty row set, and the orchestrator's
"no-data" Prediction. -/
theorem c4_adapter_absent_signals_witness :
    fetchOandaCandles none "1m" none (.ok (200, ⟨[]⟩)) = none
    ∧ fetchOandaCandles (some "t") "1m" none (.ok (500, ⟨[]⟩)) = none
    ∧ fetchOandaCandles (some "t") "1m" none
        (.ok (200, ⟨[⟨none, none, none, 3⟩]⟩)) = none
    ∧ fetchAlphaVantageCandles none "XAUUSD" "1h" 300 none
        (.ok (200, ⟨none, none, some []⟩)) = none
    ∧ fetchAlphaVantageCandles (some "k") "XAUUSD" "1h" 300 none
        (.ok (429, ⟨none, none, none⟩)) = none
    ∧ fetchAlphaVantageCandles (some "k") "XAUUSD" "1h" 300 none
        (.ok (200, ⟨some "rate limit", none, none⟩)) = none
    ∧ fetchAlphaVantageCandles (some "k") "XAUUSD" "1h" 300 none
        (.ok (200, ⟨none, none, some []⟩)) = none
    ∧ processTF none none (.got none .noData) "1m" = noDataPred "1m" := by
  obtain ⟨w1, w2, w3, w4, w5, w6, w7, w8, w9, w10⟩ := c4_adapter_absent_signals
  refine ⟨w1 "1m" none _, ?_, ?_, ?_, ?_, ?_, ?_, (w10 none none "1m").1⟩
  · exact w3 "t" "1m" "M1" 500 ⟨[]⟩ rfl (by decide)
  · refine w4 "t" "1m" "M1" ⟨[⟨none, none, none, 3⟩]⟩ rfl ?_
    intro c hc
    simp only [List.mem_singleton] at hc
    rw [hc]
  · exact w5 "XAUUSD" "1h" 300 none _
  · exact w7 "k" "XAUUSD" "1h" 300 429 ⟨none, none, none⟩ (by decide)
  · exact w8 "k" "XAUUSD" "1h" 300 ⟨some "rate limit", none, none⟩ "rate limit" rfl
  · exact w9 "k" "XAUUSD" "1h" 300 ⟨none, none, some []⟩ rfl rfl rfl
